import Mathlib

/-!
# Verification of the terminal chat client (`src/chat.py`)

Shallow embedding of the program's data model and operations:

* the transcript store `chatContent` and the completion client `call_chat`
  (`src/chat.py` lines 38-58);
* the send orchestrator `handle_send` (`src/chat.py` lines 147-174), split into
  its synchronous prelude (event-loop side, before the `run_in_executor`
  dispatch), the worker-side completion call, and the synchronous finish
  (event-loop side, after the await resolves);
* the output viewport helper `append_output` (`src/chat.py` lines 93-97),
  together with the parts of `prompt_toolkit`'s `Buffer` / `Document`
  semantics it invokes (`insert_text`, `cursor_down`, line/column geometry);
* the `AnsiEscapeLexer` (`src/chat.py` lines 24-34), together with
  `prompt_toolkit.formatted_text.ansi.ANSI`, whose character-level parser
  produces the fragment lists the lexer returns.

Machine strings are modelled as Lean `String` / `List Char`; the remote
completion request is modelled as an oracle returning `Except String String`
(an exception message, or the reply text); Python exceptions are modelled with
`Except`.  The markdown renderer `md_to_ansi` delegates entirely to the
external `rich` library and is abstracted as a function parameter
`mdRender : String → String`.
-/

/-! ## Python string helpers -/

/-- The ASCII whitespace characters stripped by Python's `str.strip()`
(space, tab, newline, carriage return, vertical tab, form feed).  Python also
strips Unicode whitespace such as U+00A0; the claims only involve ordinary
whitespace, so the model covers the ASCII set. -/
def pyIsSpace (c : Char) : Bool :=
  c = ' ' || c = '\t' || c = '\n' || c = '\r' || c = '\x0b' || c = '\x0c'

/-- Python `str.strip()` on a character list: drop whitespace from both ends. -/
def pyStrip (s : List Char) : List Char :=
  ((s.dropWhile pyIsSpace).reverse.dropWhile pyIsSpace).reverse

/-- Python `str.strip()` on a `String`. -/
def pyStripStr (s : String) : String :=
  String.mk (pyStrip s.data)

/-! ## Transcript store and completion client (`src/chat.py` lines 38-58)

```python
chatContent = []

def call_chat(prompt, model):
    try:
        from openai import OpenAI
        client = OpenAI(api_key=os.getenv("OPENAI_API_KEY"))
        chatContent.append({
            "role": "user",
            "content": prompt,
            "promptID": len(chatContent) + 1
        })
        resp = client.chat.completions.create(model=model, messages=chatContent)
        return resp.choices[0].message.content
    except Exception as err:
        return f"OpenAI error: {err}"
```
-/

/-- One entry of the global `chatContent` list: the dict
`{"role": ..., "content": ..., "promptID": ...}`. -/
structure Message where
  role : String
  content : String
  promptID : Nat
deriving Repr, DecidableEq

/-- The remote request `client.chat.completions.create(...)` followed by the
access `resp.choices[0].message.content`, as an oracle: given the message list
and the model identifier it either raises an exception (`Except.error` with
the exception's message) or returns the reply text.  The `openai` import and
client construction are assumed to succeed (the module is an installed
dependency of the program). -/
def CompletionApi : Type :=
  List Message → String → Except String String

/-- The user-message dict built by `call_chat` before the request:
`promptID` is `len(chatContent) + 1`, evaluated before the append. -/
def userMsg (chat : List Message) (prompt : String) : Message :=
  { role := "user", content := prompt, promptID := chat.length + 1 }

/-- `call_chat(prompt, model)`.  The state of the global `chatContent` list is
passed explicitly; the result pairs the new list state with the returned
string.  The whole body runs inside `try`; the user-message append happens
before the request, so it has taken effect whether or not the request raises.
The `except Exception` clause converts any raised exception into the string
`"OpenAI error: " ++ err` returned through the normal channel.  The outer
`Except` is the Python exception channel of the function itself:
`Except.error` would mean an exception propagating to the caller. -/
def call_chat (api : CompletionApi) (chat : List Message)
    (prompt model : String) : Except String (List Message × String) :=
  let chat' := chat ++ [userMsg chat prompt]
  match api chat' model with
  | Except.ok reply => Except.ok (chat', reply)
  | Except.error err => Except.ok (chat', "OpenAI error: " ++ err)

/-! ## ANSI theme constants (`src/chat.py` lines 62-67) -/

def NEON_RED : String := "\x1b[38;2;255;60;60m"
def NEON_GREEN : String := "\x1b[38;2;0;255;140m"
def NEON_BLUE : String := "\x1b[38;2;0;210;255m"
def NEON_PINK : String := "\x1b[38;2;255;0;200m"
def DIM : String := "\x1b[2m"
def RESET : String := "\x1b[0m"

/-! ## Output viewport buffer (`src/chat.py` lines 84-97)

`append_output` operates on `output_area.buffer`, a `prompt_toolkit`
`Buffer`.  The relevant `Buffer` / `Document` semantics (from
`prompt_toolkit/buffer.py` and `prompt_toolkit/document.py`):

* `Buffer.insert_text(data)`: `text = text[:cursor] + data + text[cursor:]`,
  `cursor += len(data)`;
* `Document.lines`: `text.split("\n")`;
* `Document._line_start_indexes`: cumulative sums `[0, l0+1, l0+l1+2, ...]`,
  one entry per line;
* `Document._find_line_start_index(i)`: `bisect_right(indexes, i) - 1` and
  the start index of that row (the index list is sorted, so `bisect_right`
  is the length of the prefix of entries `≤ i`);
* `Document.translate_row_col_to_index(row, col)`: start index of `row`
  (the last line when `row` is past the end; `row` is never negative here),
  plus `col` clamped to that line's length, the result clamped to
  `len(text)`;
* `Buffer.cursor_down(count)`: move to
  `translate_row_col_to_index(current_row + count, current_col)`.
  (`Buffer.preferred_column` is `None` at this point: `insert_text` set a
  fresh document, which resets it.)
-/

/-- A `prompt_toolkit` `Buffer` as used by `append_output`: the text and the
cursor position (an index into the text, `0 ≤ cursor ≤ text.length`). -/
structure OutBuf where
  text : List Char
  cursor : Nat
deriving Repr, DecidableEq

/-- `Document.lines`: Python `text.split("\n")`.  Always non-empty. -/
def splitNL : List Char → List (List Char)
  | [] => [[]]
  | c :: rest =>
    if c = '\n' then [] :: splitNL rest
    else
      match splitNL rest with
      | [] => [[c]]
      | l :: ls => (c :: l) :: ls

/-- Helper for `Document._line_start_indexes`: given the start position of the
current line and the lengths of the remaining lines, the list of line start
indexes (each line starts one past the newline ending its predecessor). -/
def lineStarts : Nat → List Nat → List Nat
  | _, [] => []
  | pos, len :: rest => pos :: lineStarts (pos + len + 1) rest

/-- `Document._line_start_indexes`: start index of every line of the text. -/
def lineStartIndexes (text : List Char) : List Nat :=
  lineStarts 0 ((splitNL text).map List.length)

/-- `Document._find_line_start_index(i)`: the row containing index `i` and
that row's start index.  `bisect_right` over the sorted start-index list is
the number of entries `≤ i`; the first entry is `0 ≤ i`, so the row is that
count minus one. -/
def findLineStartIndex (text : List Char) (i : Nat) : Nat × Nat :=
  let idxs := lineStartIndexes text
  let row := (idxs.takeWhile (fun x => decide (x ≤ i))).length - 1
  (row, idxs.getD row 0)

/-- `Document.cursor_position_row`. -/
def cursorRow (text : List Char) (i : Nat) : Nat :=
  (findLineStartIndex text i).1

/-- `Document.cursor_position_col`. -/
def cursorCol (text : List Char) (i : Nat) : Nat :=
  i - (findLineStartIndex text i).2

/-- `Document.translate_row_col_to_index(row, col)`: start index of the row
(the last row when `row` is out of range; negative rows cannot arise here),
plus the column clamped to the row's length, clamped to the text length. -/
def translateRowColToIndex (text : List Char) (row col : Nat) : Nat :=
  let idxs := lineStartIndexes text
  let ls := splitNL text
  let start := if row < ls.length then idxs.getD row 0 else idxs.getLastD 0
  let line := if row < ls.length then ls.getD row [] else ls.getLastD []
  min (start + min col line.length) text.length

/-- `Buffer.insert_text(data)` (insert mode, `move_cursor=True`). -/
def insertText (b : OutBuf) (data : List Char) : OutBuf :=
  { text := b.text.take b.cursor ++ data ++ b.text.drop b.cursor,
    cursor := b.cursor + data.length }

/-- `Buffer.cursor_down(count)` with no remembered preferred column:
move the cursor `count` rows down, staying at the current column (clamped
to the target line's length and to the text length). -/
def cursorDown (b : OutBuf) (count : Nat) : OutBuf :=
  { b with
    cursor :=
      translateRowColToIndex b.text (cursorRow b.text b.cursor + count)
        (cursorCol b.text b.cursor) }

/-- `append_output(ansi_text)` (`src/chat.py` lines 93-97): insert the text at
the cursor, then `cursor_down(count=10**6)`.  (`get_app().invalidate()` is a
redraw hint with no buffer state.) -/
def append_output (b : OutBuf) (data : List Char) : OutBuf :=
  cursorDown (insertText b data) 1000000

/-- The initial output buffer: `TextArea(text="")`, cursor at 0. -/
def outputInit : OutBuf := { text := [], cursor := 0 }

/-! ## UI state and the send orchestrator (`src/chat.py` lines 100-174)

`handle_send` is an `async` function created as a background task per
enter-press.  Its synchronous prelude (read+strip input, clear input, echo to
output, set status to Thinking) runs on the event loop; the single suspension
point is `await loop.run_in_executor(None, call_chat, prompt, model)`, which
runs `call_chat` on a worker thread; the finish (append rendered response,
reset status, focus input) runs on the event loop after the await resolves.
-/

/-- `f"{NEON_GREEN}Status:{RESET} Ready"` (the `status` label's text). -/
def readyStatus : String := NEON_GREEN ++ "Status:" ++ RESET ++ " Ready"

/-- `f"{NEON_GREEN}Status:{RESET} Thinking…"`. -/
def thinkingStatus : String := NEON_GREEN ++ "Status:" ++ RESET ++ " Thinking…"

/-- The echoed user line `f"\n{NEON_GREEN}➤ [You]:{RESET} {prompt}\n"`. -/
def echoLine (prompt : String) : String :=
  "\n" ++ NEON_GREEN ++ "➤ [You]:" ++ RESET ++ " " ++ prompt ++ "\n"

/-- `'─'*60`, the horizontal separator around a rendered response. -/
def sep60 : String := String.mk (List.replicate 60 '─')

/-- The response block appended after the completion resolves:
`f"{NEON_PINK}{'─'*60}{RESET}\n{md_to_ansi(response)}\n{NEON_PINK}{'─'*60}{RESET}\n"`.
`mdRender` stands for `md_to_ansi`, whose body delegates to the external
`rich` library. -/
def responseBlock (mdRender : String → String) (response : String) : String :=
  NEON_PINK ++ sep60 ++ RESET ++ "\n" ++ mdRender response ++ "\n"
    ++ NEON_PINK ++ sep60 ++ RESET ++ "\n"

/-- The mutable UI / process state touched by `handle_send`: the input
viewport text (`input_area.text`), the output viewport buffer
(`output_area.buffer`), the global `chatContent` list, the status label text,
and whether UI focus is on the input viewport. -/
structure AppState where
  inputText : String
  output : OutBuf
  chatContent : List Message
  statusText : String
  focusOnInput : Bool
deriving Repr, DecidableEq

/-- The synchronous prelude of `handle_send` for a non-empty stripped prompt
(`src/chat.py` lines 152-158), run on the event loop before the worker call is
dispatched: clear the input viewport, append the echoed prompt to the output
viewport, set the status label to Thinking. -/
def handle_send_prelude (st : AppState) (prompt : String) : AppState :=
  { st with
    inputText := "",
    output := append_output st.output (echoLine prompt).data,
    statusText := thinkingStatus }

/-- The synchronous finish of `handle_send` (`src/chat.py` lines 167-174), run
on the event loop after the awaited worker call resolves: append the rendered
response block to the output viewport, reset the status label to Ready, focus
the input viewport. -/
def handle_send_finish (mdRender : String → String) (st : AppState)
    (response : String) : AppState :=
  { st with
    output := append_output st.output (responseBlock mdRender response).data,
    statusText := readyStatus,
    focusOnInput := true }

/-- `handle_send()` (`src/chat.py` lines 147-174), one complete run of the
background task.  `Except.error` in the result would mean an exception
propagating out of the task (killing it); the whitespace-only early return
leaves the state untouched. -/
def handle_send (api : CompletionApi) (mdRender : String → String)
    (st : AppState) (model : String) : Except String AppState :=
  let prompt := pyStripStr st.inputText
  if prompt = "" then Except.ok st
  else
    let st1 := handle_send_prelude st prompt
    match call_chat api st1.chatContent prompt model with
    | Except.ok (chat', response) =>
        Except.ok (handle_send_finish mdRender { st1 with chatContent := chat' } response)
    | Except.error e => Except.error e

/-! ## Interleaved transcript mutation (`src/chat.py` lines 45-49)

`submit` creates one background `handle_send` task per enter-press, and each
task runs its `call_chat` on a worker thread of the default executor, so
overlapping sends mutate the global `chatContent` list from concurrent
threads.  Inside `call_chat` the statement

```python
chatContent.append({..., "promptID": len(chatContent) + 1})
```

is two interpreter operations: first the dict literal is evaluated (reading
`len(chatContent)` to compute the id), then `list.append` runs.  Each is
atomic under the GIL, but a thread switch may occur between them.  The step
model below exposes exactly this granularity.
-/

/-- One worker thread executing `call_chat`'s transcript mutation for one
send: its prompt, the message dict it has evaluated but not yet appended, and
whether its append has already run. -/
structure SendTask where
  prompt : String
  pending : Option Message := none
  done : Bool := false
deriving Repr, DecidableEq

/-- One atomic interpreter operation of worker `i`: `read i` evaluates the
dict literal (reading `len(chatContent)` to assign `promptID`), `append i`
runs `chatContent.append(...)` on the dict built by the worker's read.  A
`read` for a missing or already-started task, and an `append` before the
matching read, are no-ops (such schedules cannot occur in the program). -/
inductive SendStep where
  | read (i : Nat)
  | append (i : Nat)
deriving Repr, DecidableEq

/-- The shared interpreter state: the global `chatContent` list and the
worker tasks. -/
structure SendsState where
  chat : List Message
  tasks : List SendTask
deriving Repr, DecidableEq

/-- Process start: empty transcript, one not-yet-started worker per prompt. -/
def initSends (prompts : List String) : SendsState :=
  { chat := [], tasks := prompts.map (fun p => { prompt := p }) }

/-- One atomic interpreter step. -/
def sendStep (st : SendsState) : SendStep → SendsState
  | SendStep.read i =>
    match st.tasks[i]? with
    | some t =>
      if t.done = false ∧ t.pending = none then
        { st with
          tasks := st.tasks.set i
            { t with pending := some (userMsg st.chat t.prompt) } }
      else st
    | none => st
  | SendStep.append i =>
    match st.tasks[i]? with
    | some t =>
      match t.pending with
      | some m =>
        { chat := st.chat ++ [m],
          tasks := st.tasks.set i { t with pending := none, done := true } }
      | none => st
    | none => st

/-- Run a schedule of interpreter steps from process start. -/
def runSchedule (prompts : List String) (sched : List SendStep) : SendsState :=
  sched.foldl sendStep (initSends prompts)

/-- The serialized schedule: each send's read is immediately followed by its
append, and the next send begins only after that (no overlap). -/
def serialSchedule (n : Nat) : List SendStep :=
  (List.range n).flatMap (fun i => [SendStep.read i, SendStep.append i])

/-! ## ANSI escape parser (`prompt_toolkit.formatted_text.ansi.ANSI`)

`AnsiEscapeLexer.lex_document` (`src/chat.py` lines 24-34) converts each line
via `to_formatted_text(ANSI(line))`.  `to_formatted_text` returns
`ANSI.__pt_formatted_text__()`, the fragment list built by the character
coroutine `ANSI._parse_corot` while `ANSI.__init__` feeds it the string one
character at a time.  The embedding below reproduces that coroutine as
mutually recursive functions over the remaining characters: `ansiGo` is the
top of the `while True` loop (`zwCheck = false` for the one character read
right after `\x02`, which skips the `\x01` check), `ansiZW` is the zero-width
escape loop, and `ansiCSI` is the CSI parameter loop.  Note that the parser
appends one fragment per plain character (the library deliberately does not
merge runs of equal style).
-/

/-- `_fg_colors`: inverse of `FG_ANSI_COLORS`
(`prompt_toolkit/output/vt100.py`), SGR code to color name. -/
def fgColorName (n : Nat) : Option String :=
  match n with
  | 39 => some "ansidefault"
  | 30 => some "ansiblack"
  | 31 => some "ansired"
  | 32 => some "ansigreen"
  | 33 => some "ansiyellow"
  | 34 => some "ansiblue"
  | 35 => some "ansimagenta"
  | 36 => some "ansicyan"
  | 37 => some "ansigray"
  | 90 => some "ansibrightblack"
  | 91 => some "ansibrightred"
  | 92 => some "ansibrightgreen"
  | 93 => some "ansibrightyellow"
  | 94 => some "ansibrightblue"
  | 95 => some "ansibrightmagenta"
  | 96 => some "ansibrightcyan"
  | 97 => some "ansiwhite"
  | _ => none

/-- `_bg_colors`: inverse of `BG_ANSI_COLORS`. -/
def bgColorName (n : Nat) : Option String :=
  match n with
  | 49 => some "ansidefault"
  | 40 => some "ansiblack"
  | 41 => some "ansired"
  | 42 => some "ansigreen"
  | 43 => some "ansiyellow"
  | 44 => some "ansiblue"
  | 45 => some "ansimagenta"
  | 46 => some "ansicyan"
  | 47 => some "ansigray"
  | 100 => some "ansibrightblack"
  | 101 => some "ansibrightred"
  | 102 => some "ansibrightgreen"
  | 103 => some "ansibrightyellow"
  | 104 => some "ansibrightblue"
  | 105 => some "ansibrightmagenta"
  | 106 => some "ansibrightcyan"
  | 107 => some "ansiwhite"
  | _ => none

/-- Python `f"{n:02x}"`: lowercase hex, padded with a leading zero to at
least two digits. -/
def hexByte (n : Nat) : String :=
  let s := String.mk (Nat.toDigits 16 n)
  if s.length < 2 then "0" ++ s else s

/-- Python `f"#{r:02x}{g:02x}{b:02x}"`. -/
def truecolorStr (r g b : Nat) : String :=
  "#" ++ hexByte r ++ hexByte g ++ hexByte b

/-- The 16 basic entries of `_256ColorCache` (`prompt_toolkit/output/vt100.py`)
as (r, g, b) triples. -/
def basic16 : List (Nat × Nat × Nat) :=
  [(0x00, 0x00, 0x00), (0xCD, 0x00, 0x00), (0x00, 0xCD, 0x00),
   (0xCD, 0xCD, 0x00), (0x00, 0x00, 0xEE), (0xCD, 0x00, 0xCD),
   (0x00, 0xCD, 0xCD), (0xE5, 0xE5, 0xE5), (0x7F, 0x7F, 0x7F),
   (0xFF, 0x00, 0x00), (0x00, 0xFF, 0x00), (0xFF, 0xFF, 0x00),
   (0x5C, 0x5C, 0xFF), (0xFF, 0x00, 0xFF), (0x00, 0xFF, 0xFF),
   (0xFF, 0xFF, 0xFF)]

/-- The 6x6x6 cube value range `(0x00, 0x5F, 0x87, 0xAF, 0xD7, 0xFF)`. -/
def cubeValue (k : Nat) : Nat :=
  match k % 6 with
  | 0 => 0x00
  | 1 => 0x5F
  | 2 => 0x87
  | 3 => 0xAF
  | 4 => 0xD7
  | _ => 0xFF

/-- `_256_colors` (`prompt_toolkit/formatted_text/ansi.py`): maps an escape
code to its `#rrggbb` string.  The table holds the 16 basic colors, then 217
cube entries (`for i in range(217)` — one more than the 6x6x6 cube, so entry
232 is `#000000`), then 21 grayscale entries (indexes 233-253); `dict.get`
yields `None` past the end. -/
def color256 (m : Nat) : Option String :=
  if h : m < 16 then
    match basic16.get ⟨m, by simp [basic16]; omega⟩ with
    | (r, g, b) => some (truecolorStr r g b)
  else if m < 233 then
    let i := m - 16
    some (truecolorStr (cubeValue ((i / 36) % 6)) (cubeValue ((i / 6) % 6))
      (cubeValue (i % 6)))
  else if m < 254 then
    let v := 8 + (m - 232) * 10
    some (truecolorStr v v v)
  else none

/-- The style-attribute state of the `ANSI` parser (`ANSI.__init__`):
`_color`, `_bgcolor` and the seven boolean flags, all initially off. -/
structure AnsiAttrs where
  color : Option String := none
  bgcolor : Option String := none
  bold : Bool := false
  underline : Bool := false
  strike : Bool := false
  italic : Bool := false
  blink : Bool := false
  reverse : Bool := false
  hidden : Bool := false
deriving Repr, DecidableEq

/-- The processing loop of `ANSI._select_graphic_rendition`: pop SGR codes
front to back and apply each.  `38;5;n` / `48;5;n` select a 256-color entry,
`38;2;r;g;b` / `48;2;r;g;b` a truecolor value; `0` resets everything. -/
def sgrLoop (a : AnsiAttrs) : List Nat → AnsiAttrs
  | [] => a
  | attr :: rest =>
    if (fgColorName attr).isSome then
      sgrLoop { a with color := fgColorName attr } rest
    else if (bgColorName attr).isSome then
      sgrLoop { a with bgcolor := bgColorName attr } rest
    else if attr = 1 then sgrLoop { a with bold := true } rest
    else if attr = 3 then sgrLoop { a with italic := true } rest
    else if attr = 4 then sgrLoop { a with underline := true } rest
    else if attr = 5 then sgrLoop { a with blink := true } rest
    else if attr = 6 then sgrLoop { a with blink := true } rest
    else if attr = 7 then sgrLoop { a with reverse := true } rest
    else if attr = 8 then sgrLoop { a with hidden := true } rest
    else if attr = 9 then sgrLoop { a with strike := true } rest
    else if attr = 22 then sgrLoop { a with bold := false } rest
    else if attr = 23 then sgrLoop { a with italic := false } rest
    else if attr = 24 then sgrLoop { a with underline := false } rest
    else if attr = 25 then sgrLoop { a with blink := false } rest
    else if attr = 27 then sgrLoop { a with reverse := false } rest
    else if attr = 28 then sgrLoop { a with hidden := false } rest
    else if attr = 29 then sgrLoop { a with strike := false } rest
    else if attr = 0 then sgrLoop {} rest
    else if (attr = 38 || attr = 48) && 1 < rest.length then
      match _h1 : rest with
      | [] => sgrLoop a []
      | n :: rest2 =>
        if n = 5 && 1 ≤ rest2.length then
          match _h2 : rest2 with
          | [] => sgrLoop a []
          | m :: rest3 =>
            if attr = 38 then sgrLoop { a with color := color256 m } rest3
            else sgrLoop { a with bgcolor := color256 m } rest3
        else if n = 2 && 3 ≤ rest2.length then
          match rest2 with
          | r :: g :: b :: rest3 =>
            if attr = 38 then
              sgrLoop { a with color := some (truecolorStr r g b) } rest3
            else sgrLoop { a with bgcolor := some (truecolorStr r g b) } rest3
          | _ => sgrLoop a rest2
        else sgrLoop a rest2
    else sgrLoop a rest
termination_by l => l.length
decreasing_by all_goals (simp_wf <;> subst_vars <;> simp_all <;> omega)


/-- `ANSI._select_graphic_rendition(attrs)`: an empty parameter list means
reset (`attrs = [0]`). -/
def selectGraphicRendition (a : AnsiAttrs) (attrs : List Nat) : AnsiAttrs :=
  sgrLoop a (if attrs.isEmpty then [0] else attrs)

/-- `ANSI._create_style_string()`: the present attributes joined by spaces, in
the source's order.  (Stored color strings are never empty, so Python's
truthiness test on them is the `Option` test.) -/
def createStyleString (a : AnsiAttrs) : String :=
  String.intercalate " "
    ((match a.color with | some c => [c] | none => [])
      ++ (match a.bgcolor with | some c => ["bg:" ++ c] | none => [])
      ++ (if a.bold then ["bold"] else [])
      ++ (if a.underline then ["underline"] else [])
      ++ (if a.strike then ["strike"] else [])
      ++ (if a.italic then ["italic"] else [])
      ++ (if a.blink then ["blink"] else [])
      ++ (if a.reverse then ["reverse"] else [])
      ++ (if a.hidden then ["hidden"] else []))

/-- Python `int(current or 0)` for a digit string accumulated in the CSI
loop: empty means 0. -/
def digitsToNat (s : List Char) : Nat :=
  s.foldl (fun acc c => acc * 10 + (c.toNat - '0'.toNat)) 0

mutual

/-- Top of the parser's `while True` loop, about to read character `c`.
`zwCheck` is false only for the single character read right after a `\x02`
(the source falls through to the CSI check without re-testing `\x01`). -/
def ansiGo (zwCheck : Bool) (style : String) (a : AnsiAttrs) :
    List Char → List (String × String)
  | [] => []
  | c :: rest =>
    if zwCheck && c = '\x01' then ansiZW style a [] rest
    else if c = '\x1b' then
      match rest with
      | [] => []
      | c2 :: rest2 =>
        if c2 = '[' then ansiCSI style a [] [] rest2
        else ansiGo true style a rest2
    else if c = '\x9b' then ansiCSI style a [] [] rest
    else (style, c.toString) :: ansiGo true style a rest

/-- The zero-width escape loop: accumulate characters until `\x02`, then emit
one `[ZeroWidthEscape]` fragment and continue with the next character without
the `\x01` check. -/
def ansiZW (style : String) (a : AnsiAttrs) (acc : List Char) :
    List Char → List (String × String)
  | [] => []
  | c :: rest =>
    if c = '\x02' then
      ("[ZeroWidthEscape]", String.mk acc) :: ansiGo false style a rest
    else ansiZW style a (acc ++ [c]) rest

/-- The CSI loop: accumulate a digit string into `current`, close it into
`params` (clamped at 9999) on each non-digit; `;` separates parameters, `m`
applies the SGR codes and recomputes the style string, `C` emits
`params[0]` spaces in the current style, anything else abandons the
sequence. -/
def ansiCSI (style : String) (a : AnsiAttrs) (current : List Char)
    (params : List Nat) : List Char → List (String × String)
  | [] => []
  | ch :: rest =>
    if ch.isDigit then ansiCSI style a (current ++ [ch]) params rest
    else
      let params' := params ++ [min (digitsToNat current) 9999]
      if ch = ';' then ansiCSI style a [] params' rest
      else if ch = 'm' then
        let a' := selectGraphicRendition a params'
        ansiGo true (createStyleString a') a' rest
      else if ch = 'C' then
        List.replicate (params'.headD 0) (style, " ") ++ ansiGo true style a rest
      else ansiGo true style a rest

end

/-- `to_formatted_text(ANSI(s))`: run the parser over the whole string with
the initial empty style and default attributes. -/
def ansiParse (s : List Char) : List (String × String) :=
  ansiGo true "" {} s

/-! ## The ANSI escape lexer (`src/chat.py` lines 24-34)

```python
class AnsiEscapeLexer(Lexer):
    def lex_document(self, document):
        lines = document.text.splitlines()
        def get_line(lineno):
            if lineno >= len(lines):
                return []
            return to_formatted_text(ANSI(lines[lineno]))
        return get_line
```
-/

/-- Whether `c` is one of Python `str.splitlines()`'s line boundaries
(`\n`, `\r`, `\v`, `\f`, FS, GS, RS, NEL, LINE SEPARATOR, PARAGRAPH
SEPARATOR; `\r\n` counts as a single boundary). -/
def isLineBreak (c : Char) : Bool :=
  c = '\n' || c = '\r' || c = '\x0b' || c = '\x0c' || c = '\x1c'
    || c = '\x1d' || c = '\x1e' || c = '\x85' || c = ' ' || c = ' '

/-- Python `str.splitlines()`: split at line boundaries, treating `\r\n` as
one boundary and producing no trailing empty line. -/
def pySplitlines : List Char → List (List Char)
  | [] => []
  | '\r' :: '\n' :: rest => [] :: pySplitlines rest
  | c :: rest =>
    if isLineBreak c then [] :: pySplitlines rest
    else
      match pySplitlines rest with
      | [] => [[c]]
      | l :: ls => (c :: l) :: ls

/-- `AnsiEscapeLexer.lex_document`: the per-line accessor `get_line` over the
document's text.  Out-of-range line numbers yield the empty fragment list;
in-range lines are converted by `to_formatted_text(ANSI(lines[lineno]))`. -/
def lex_document (text : List Char) (lineno : Nat) : List (String × String) :=
  let lines := pySplitlines text
  if lineno ≥ lines.length then []
  else ansiParse (lines.getD lineno [])

/-! ## Concrete instances for witnesses and counterexamples -/

/-- A completion oracle whose request succeeds with the reply `"Hi there"`. -/
def okApi : CompletionApi := fun _ _ => Except.ok "Hi there"

/-- A completion oracle whose request raises an exception `"boom"`. -/
def errApi : CompletionApi := fun _ _ => Except.error "boom"

/-- A start state: the user has typed `"Hello"`; empty transcript, empty
output viewport, status Ready, focus on the input viewport. -/
def st0 : AppState :=
  { inputText := "Hello", output := outputInit, chatContent := [],
    statusText := readyStatus, focusOnInput := true }

/-- A start state whose pending input is whitespace only. -/
def stBlank : AppState := { st0 with inputText := "  \t " }

/-! ## Helper lemmas: the completion client -/

/-- `call_chat` always returns normally, and the new `chatContent` state is
always the old one with the user message (sequence id `len + 1`) appended at
the end — whether the request succeeded or raised. -/
theorem callChat_shape (api : CompletionApi) (chat : List Message)
    (prompt model : String) :
    ∃ resp, call_chat api chat prompt model
      = Except.ok (chat ++ [userMsg chat prompt], resp) := by
  unfold call_chat
  cases h : api (chat ++ [userMsg chat prompt]) model with
  | ok r => exact ⟨r, by simp [h]⟩
  | error e => exact ⟨"OpenAI error: " ++ e, by simp [h]⟩

/-! ## Claim C4 -/

/-- C4: `call_chat` never propagates an exception to its caller: for every
input and every failure raised during the request, the function returns
normally, and a raised exception `err` is converted into the string
`"OpenAI error: " ++ err` delivered through the same return channel as a
successful reply. -/
theorem callChat_never_raises :
    (∀ (api : CompletionApi) (chat : List Message) (prompt model : String),
      ∃ r, call_chat api chat prompt model = Except.ok r)
    ∧ (∀ (api : CompletionApi) (chat : List Message) (prompt model err : String),
        api (chat ++ [userMsg chat prompt]) model = Except.error err →
        call_chat api chat prompt model
          = Except.ok (chat ++ [userMsg chat prompt], "OpenAI error: " ++ err)) := by
  constructor
  · intro api chat prompt model
    obtain ⟨resp, hr⟩ := callChat_shape api chat prompt model
    exact ⟨_, hr⟩
  · intro api chat prompt model err h
    unfold call_chat
    simp [h]

/-- Witness for C4: a request that raises `"boom"` yields the normal return
`"OpenAI error: boom"`. -/
theorem callChat_never_raises_witness :
    errApi ([] ++ [userMsg [] "p"]) "m" = Except.error "boom"
      ∧ call_chat errApi [] "p" "m"
          = Except.ok ([userMsg [] "p"], "OpenAI error: boom") :=
  ⟨rfl, callChat_never_raises.2 errApi [] "p" "m" "boom" rfl⟩

/-! ## Helper lemmas: the interleaved transcript -/

/-- Every interpreter step only ever extends the transcript at the end:
under any schedule the store never removes or reorders entries. -/
theorem sendStep_extends (st : SendsState) (e : SendStep) :
    ∃ tail, (sendStep st e).chat = st.chat ++ tail := by
  cases e with
  | read i =>
    simp only [sendStep]
    split
    · split
      · exact ⟨[], by simp⟩
      · exact ⟨[], by simp⟩
    · exact ⟨[], by simp⟩
  | append i =>
    simp only [sendStep]
    split
    · split
      · exact ⟨_, rfl⟩
      · exact ⟨[], by simp⟩
    · exact ⟨[], by simp⟩

/-- Reduction of a `read` step that finds a fresh worker: the worker's dict
is built with `promptID = len(chatContent) + 1` read from the current
transcript. -/
theorem sendStep_read (st : SendsState) (i : Nat) (t : SendTask)
    (h : st.tasks[i]? = some t) (h2 : t.done = false) (h3 : t.pending = none) :
    sendStep st (SendStep.read i)
      = { st with
          tasks := st.tasks.set i
            { t with pending := some (userMsg st.chat t.prompt) } } := by
  simp only [sendStep]
  split
  · next t' heq =>
    rw [h] at heq
    cases heq
    rw [if_pos ⟨h2, h3⟩]
  · next heq => rw [h] at heq; cases heq

/-- Reduction of an `append` step of a worker holding an evaluated dict. -/
theorem sendStep_append (st : SendsState) (i : Nat) (t : SendTask)
    (m : Message) (h : st.tasks[i]? = some t) (h2 : t.pending = some m) :
    sendStep st (SendStep.append i)
      = { chat := st.chat ++ [m],
          tasks := st.tasks.set i { t with pending := none, done := true } } := by
  simp only [sendStep]
  split
  · next t' heq =>
    rw [h] at heq
    cases heq
    split
    · next m' heq2 =>
      rw [h2] at heq2
      cases heq2
      rfl
    · next heq2 => rw [h2] at heq2; cases heq2
  · next heq => rw [h] at heq; cases heq

/-- State after the serialized schedule of the first `k` sends: the
transcript holds exactly the ids `1..k` and the remaining workers are
untouched. -/
theorem serial_invariant (prompts : List String) :
    ∀ k, k ≤ prompts.length →
      ((runSchedule prompts (serialSchedule k)).chat.map Message.promptID
          = List.range' 1 k)
        ∧ (runSchedule prompts (serialSchedule k)).chat.length = k
        ∧ ∀ j, k ≤ j →
            (runSchedule prompts (serialSchedule k)).tasks[j]?
              = (initSends prompts).tasks[j]? := by
  intro k
  induction k with
  | zero => intro _; exact ⟨rfl, rfl, fun j _ => rfl⟩
  | succ k ih =>
    intro hk
    obtain ⟨hmap, hlen, htasks⟩ := ih (by omega)
    have hser : serialSchedule (k + 1)
        = serialSchedule k ++ [SendStep.read k, SendStep.append k] := by
      unfold serialSchedule
      rw [List.range_succ, List.flatMap_append]
      rfl
    have hrun : runSchedule prompts (serialSchedule (k + 1))
        = sendStep (sendStep (runSchedule prompts (serialSchedule k))
            (SendStep.read k)) (SendStep.append k) := by
      rw [hser, runSchedule, List.foldl_append]
      rfl
    set st := runSchedule prompts (serialSchedule k) with hst
    have hkp : k < prompts.length := by omega
    have htk : st.tasks[k]? = some { prompt := prompts[k] } := by
      rw [htasks k (Nat.le_refl k)]
      simp [initSends, hkp]
    have hklen : k < st.tasks.length := by
      have h2 := htk
      rw [List.getElem?_eq_some] at h2
      exact h2.1
    have hread := sendStep_read st k { prompt := prompts[k] } htk rfl rfl
    have hread_tk : (sendStep st (SendStep.read k)).tasks[k]?
        = some { prompt := prompts[k],
                 pending := some (userMsg st.chat prompts[k]) } := by
      rw [hread]
      simp [List.getElem?_set_self hklen]
    have happend := sendStep_append (sendStep st (SendStep.read k)) k
      { prompt := prompts[k], pending := some (userMsg st.chat prompts[k]) }
      (userMsg st.chat prompts[k]) hread_tk rfl
    rw [hrun, happend, hread]
    refine ⟨?_, ?_, ?_⟩
    · simp only [List.map_append, hmap, List.map_cons, List.map_nil]
      rw [List.range'_concat 1 k]
      simp [userMsg, hlen]
      omega
    · simp [hlen]
    · intro j hj
      have hjk : k ≠ j := by omega
      simp only [List.getElem?_set_ne hjk]
      exact htasks j (by omega)

/-! ## Claim C5 (corrected)

The claim asserts the sequence-id invariant (`len+1` at append time, strictly
increasing, never repeating) across the whole process lifetime.  But each
send's append runs on a worker thread, the `len(chatContent)+1` read and the
`list.append` are separate interpreter operations, and the program permits
overlapping sends: two concurrent workers can both read `len = n` before
either appends, and both messages then carry `promptID = n + 1` — a repeated
id, and one that is no longer `len+1` at the moment of its append.  The
invariant does hold whenever sends are serialized (each completion call
finishes before the next send begins), and the store is append-only under
every schedule.
-/

/-- Counterexample to C5: two overlapping sends whose dict evaluations both
happen before either append.  Both messages get `promptID = 1`: the ids
repeat, and they are not `1, 2` as the claimed invariant would require (the
second message's id is not `len+1` at its append). -/

theorem sequenceIds_counterexample :
    (runSchedule ["A", "B"]
        [SendStep.read 0, SendStep.read 1,
         SendStep.append 0, SendStep.append 1]).chat.map Message.promptID
      = [1, 1]
    ∧ ¬ List.Pairwise (· < ·) ([1, 1] : List Nat)
    ∧ ¬ List.Pairwise (· ≠ ·) ([1, 1] : List Nat)
    ∧ (runSchedule ["A", "B"]
        [SendStep.read 0, SendStep.read 1,
         SendStep.append 0, SendStep.append 1]).chat.map Message.promptID
      ≠ [1, 2] := by
  refine ⟨by decide, by decide, by decide, by decide⟩

/-- C5 as amended: the store is append-only under every schedule (entries are
never removed or reordered); each worker's dict is built with
`promptID = len(chatContent) + 1` read from the transcript at evaluation
time; and whenever sends are serialized — each send's append completes before
the next send starts — the assigned ids across the process lifetime are
exactly `1, 2, ..., n`: strictly increasing, never repeating.  (With
overlapping sends, duplicate ids are possible, as the counterexample
shows.) -/

theorem transcript_sequenceIds_serialized :
    (∀ (prompts : List String) (sched : List SendStep) (e : SendStep),
      ∃ tail, (runSchedule prompts (sched ++ [e])).chat
        = (runSchedule prompts sched).chat ++ tail)
    ∧ (∀ prompts : List String,
        (runSchedule prompts (serialSchedule prompts.length)).chat.map
            Message.promptID = List.range' 1 prompts.length
          ∧ List.Pairwise (· < ·)
              ((runSchedule prompts (serialSchedule prompts.length)).chat.map
                Message.promptID)) := by
  constructor
  · intro prompts sched e
    rw [runSchedule, List.foldl_append]
    exact sendStep_extends (runSchedule prompts sched) e
  · intro prompts
    obtain ⟨hmap, -, -⟩ :=
      serial_invariant prompts prompts.length (Nat.le_refl _)
    refine ⟨hmap, ?_⟩
    rw [hmap]
    exact List.pairwise_lt_range' 1 prompts.length 1 (by omega)

/-! ## Claim C6 -/

/-- C6: for a submission whose input is empty or whitespace only,
`handle_send` is a no-op: the returned state (transcript, output viewport,
input viewport, status label, focus) is exactly the starting state. -/
theorem emptyInput_noop (api : CompletionApi) (mdRender : String → String)
    (st : AppState) (model : String) (h : pyStripStr st.inputText = "") :
    handle_send api mdRender st model = Except.ok st := by
  unfold handle_send
  simp [h]

/-- Witness for C6: submitting `"  \t "` leaves the state untouched. -/
theorem emptyInput_noop_witness :
    pyStripStr stBlank.inputText = ""
      ∧ handle_send okApi id stBlank "gpt-4o-mini" = Except.ok stBlank :=
  ⟨by decide, emptyInput_noop okApi id stBlank "gpt-4o-mini" (by decide)⟩

/-! ## Claim C3 -/

/-- C3: for a non-empty trimmed input, once the completion call resolves —
whatever the oracle did, success or raised exception, and whatever the
response text — `handle_send` runs to completion (the rendering step is
reached, no exception escapes) and the final state has the status label reset
to Ready and UI focus on the input viewport. -/
theorem completion_always_renders (api : CompletionApi)
    (mdRender : String → String) (st : AppState) (model : String)
    (h : pyStripStr st.inputText ≠ "") :
    ∃ stF, handle_send api mdRender st model = Except.ok stF
      ∧ stF.statusText = readyStatus ∧ stF.focusOnInput = true := by
  unfold handle_send
  rw [if_neg h]
  obtain ⟨resp, hr⟩ :=
    callChat_shape api (handle_send_prelude st (pyStripStr st.inputText)).chatContent
      (pyStripStr st.inputText) model
  simp only [hr]
  exact ⟨_, rfl, rfl, rfl⟩

/-- Witness for C3: a send whose completion request raises still ends with
status Ready and focus on the input viewport. -/
theorem completion_always_renders_witness :
    pyStripStr st0.inputText ≠ ""
      ∧ ∃ stF, handle_send errApi id st0 "gpt-4o-mini" = Except.ok stF
          ∧ stF.statusText = readyStatus ∧ stF.focusOnInput = true :=
  ⟨by decide, completion_always_renders errApi id st0 "gpt-4o-mini" (by decide)⟩

/-! ## Claim C1 (corrected)

The claim asserts that a send appends the user message at submit time and an
assistant message after the completion resolves (two new transcript entries
per send).  In the code the user message is appended only inside `call_chat`
(during the completion call), and no assistant message is ever appended to
`chatContent`: a completed send grows the transcript by exactly one entry.
-/

/-- Counterexample to C1: submitting `"Hello"` from an empty transcript.  At
submit time (after the synchronous prelude, just before the worker call is
dispatched) the transcript is still empty — not grown by one; after the
completion resolves the whole send has grown the transcript to exactly one
entry — not two. -/
theorem sendGrowth_counterexample :
    (handle_send_prelude st0 "Hello").chatContent.length = 0
      ∧ Except.map (fun s => s.chatContent.length)
          (handle_send okApi id st0 "gpt-4o-mini") = Except.ok 1
      ∧ (0 : Nat) ≠ st0.chatContent.length + 1
      ∧ (1 : Nat) ≠ st0.chatContent.length + 2 :=
  ⟨rfl, rfl, by decide, by decide⟩

/-- C1 as amended: for every submission with non-empty trimmed input, the
transcript is unchanged at submit time; the user message is appended during
the completion call; and a completed send grows the transcript by exactly one
entry (the user message — no assistant entry is ever appended), whether the
request succeeded or raised. -/
theorem sendGrowth (api : CompletionApi) (mdRender : String → String)
    (st : AppState) (model : String) (h : pyStripStr st.inputText ≠ "") :
    (handle_send_prelude st (pyStripStr st.inputText)).chatContent
        = st.chatContent
      ∧ ∃ stF, handle_send api mdRender st model = Except.ok stF
          ∧ stF.chatContent
              = st.chatContent ++ [userMsg st.chatContent (pyStripStr st.inputText)]
          ∧ stF.chatContent.length = st.chatContent.length + 1 := by
  refine ⟨rfl, ?_⟩
  unfold handle_send
  rw [if_neg h]
  obtain ⟨resp, hr⟩ :=
    callChat_shape api (handle_send_prelude st (pyStripStr st.inputText)).chatContent
      (pyStripStr st.inputText) model
  simp only [hr]
  exact ⟨_, rfl, by simp [handle_send_prelude, handle_send_finish],
    by simp [handle_send_prelude, handle_send_finish]⟩

/-- Witness for the amended C1 at the concrete send of `"Hello"`. -/
theorem sendGrowth_witness :
    pyStripStr st0.inputText ≠ ""
      ∧ ((handle_send_prelude st0 (pyStripStr st0.inputText)).chatContent
            = st0.chatContent
          ∧ ∃ stF, handle_send okApi id st0 "gpt-4o-mini" = Except.ok stF
              ∧ stF.chatContent
                  = st0.chatContent
                      ++ [userMsg st0.chatContent (pyStripStr st0.inputText)]
              ∧ stF.chatContent.length = st0.chatContent.length + 1) :=
  ⟨by decide, sendGrowth okApi id st0 "gpt-4o-mini" (by decide)⟩

/-! ## Claim C2 (corrected)

The claim places the transcript append in the Echoing step — on the event
loop, after the input clear and output echo but before the status change and
the dispatch of the completion call.  In the code the Echoing step performs no
transcript append at all: the append happens inside `call_chat`, which runs on
the worker execution context, after the status label has already been set to
Thinking and the call dispatched.
-/

/-- Counterexample to C2: after the whole synchronous prelude of submitting
`"Hello"` (input cleared, echo appended, status already set to Thinking — the
point at which the worker call is dispatched) the transcript is still empty;
the user message appears only through the worker-side `call_chat` run. -/
theorem echoAppend_counterexample :
    (handle_send_prelude st0 "Hello").statusText = thinkingStatus
      ∧ (handle_send_prelude st0 "Hello").inputText = ""
      ∧ (handle_send_prelude st0 "Hello").chatContent = []
      ∧ Except.map (fun r => r.1)
          (call_chat okApi (handle_send_prelude st0 "Hello").chatContent
            "Hello" "gpt-4o-mini")
          = Except.ok [userMsg [] "Hello"] := by
  exact ⟨rfl, rfl, rfl, rfl⟩

/-- C2 as amended: during a send the event-loop prelude clears the input
viewport, echoes the prompt and sets the status to Thinking without touching
the transcript; the user message is appended by `call_chat` on the worker
execution context, during the dispatched completion call. -/
theorem echoAppend (st : AppState) (prompt : String) (api : CompletionApi)
    (chat : List Message) (model : String) :
    (handle_send_prelude st prompt).chatContent = st.chatContent
      ∧ (handle_send_prelude st prompt).statusText = thinkingStatus
      ∧ (handle_send_prelude st prompt).inputText = ""
      ∧ ∃ resp, call_chat api chat prompt model
          = Except.ok (chat ++ [userMsg chat prompt], resp) :=
  ⟨rfl, rfl, rfl, callChat_shape api chat prompt model⟩

/-! ## Helper lemmas: document line geometry and `append_output` -/

/-- `Document.lines` is never empty (Python `split` always yields at least
one piece). -/
theorem splitNL_ne_nil (t : List Char) : splitNL t ≠ [] := by
  cases t with
  | nil => simp [splitNL]
  | cons c rest =>
    unfold splitNL
    by_cases h : c = '\n'
    · simp [h]
    · simp only [if_neg h]
      cases splitNL rest <;> simp

/-- Length accounting for `split("\n")`: the line lengths plus the
separating newlines (one fewer than the number of lines) make up the text. -/
theorem splitNL_sum (t : List Char) :
    ((splitNL t).map List.length).sum + (splitNL t).length = t.length + 1 := by
  induction t with
  | nil => simp [splitNL]
  | cons c rest ih =>
    unfold splitNL
    by_cases h : c = '\n'
    · simp only [if_pos h, List.map_cons, List.sum_cons, List.length_cons,
        List.length_nil]
      omega
    · simp only [if_neg h]
      cases hs : splitNL rest with
      | nil => exact absurd hs (splitNL_ne_nil rest)
      | cons l ls =>
        rw [hs] at ih
        simp only [List.map_cons, List.sum_cons, List.length_cons] at ih ⊢
        omega

/-- `lineStarts` yields one start index per line. -/
theorem lineStarts_len (lens : List Nat) :
    ∀ pos, (lineStarts pos lens).length = lens.length := by
  induction lens with
  | nil => intro pos; rfl
  | cons len rest ih => intro pos; simp [lineStarts, ih]

/-- Peeling off the last line: its start index is the start position plus
the sizes (length plus newline) of all earlier lines. -/
theorem lineStarts_concat (init : List Nat) :
    ∀ pos last,
      lineStarts pos (init ++ [last])
        = lineStarts pos init ++ [pos + (init.map (· + 1)).sum] := by
  induction init with
  | nil => intro pos last; simp [lineStarts]
  | cons l rest ih =>
    intro pos last
    show pos :: lineStarts (pos + l + 1) (rest ++ [last]) = _
    rw [ih]
    simp [lineStarts, List.cons_append, Nat.add_assoc]

/-- Every start index is bounded by the start position plus the total size
of the listed lines. -/
theorem lineStarts_mem_le (lens : List Nat) :
    ∀ pos x, x ∈ lineStarts pos lens → x ≤ pos + (lens.map (· + 1)).sum := by
  induction lens with
  | nil => intro pos x hx; simp [lineStarts] at hx
  | cons l rest ih =>
    intro pos x hx
    simp only [lineStarts, List.mem_cons] at hx
    rcases hx with rfl | hx
    · omega
    · have := ih (pos + l + 1) x hx
      simp only [List.map_cons, List.sum_cons]
      omega

/-- Summing `len + 1` over a list adds the list's length to its sum. -/
theorem sum_map_succ (l : List Nat) : (l.map (· + 1)).sum = l.sum + l.length := by
  induction l with
  | nil => simp
  | cons x rest ih => simp [ih]; omega

/-- `cursor_down` from a cursor at the very end of the text stays at the end,
for any positive count: the requested row overshoots, the last row is
selected, and the column (the last line's length) lands back on the text
end. -/
theorem cursorDown_at_end (t : List Char) (count : Nat) (h1 : 1 ≤ count) :
    cursorDown { text := t, cursor := t.length } count
      = { text := t, cursor := t.length } := by
  obtain hnil | ⟨lsInit, lastLine, hls⟩ := List.eq_nil_or_concat (splitNL t)
  · exact absurd hnil (splitNL_ne_nil t)
  rw [List.concat_eq_append] at hls
  have hlens : (splitNL t).map List.length
      = lsInit.map List.length ++ [lastLine.length] := by rw [hls]; simp
  have hidxs : lineStartIndexes t
      = lineStarts 0 (lsInit.map List.length)
          ++ [((lsInit.map List.length).map (· + 1)).sum] := by
    rw [lineStartIndexes, hlens, lineStarts_concat]
    simp
  have hsum := splitNL_sum t
  rw [hls] at hsum
  have hsum2 : (lsInit.map List.length).sum + lastLine.length
      + (lsInit.length + 1) = t.length + 1 := by
    simpa using hsum
  have hT : ((lsInit.map List.length).map (· + 1)).sum + lastLine.length
      = t.length := by
    rw [sum_map_succ]
    simp only [List.length_map]
    omega
  have hall : ∀ x ∈ lineStartIndexes t, x ≤ t.length := by
    rw [hidxs]
    intro x hx
    rcases List.mem_append.mp hx with hx | hx
    · have := lineStarts_mem_le (lsInit.map List.length) 0 x hx
      omega
    · simp only [List.mem_singleton] at hx
      omega
  have htake : (lineStartIndexes t).takeWhile (fun x => decide (x ≤ t.length))
      = lineStartIndexes t :=
    List.takeWhile_eq_self_iff.mpr (fun x hx => by
      simpa using hall x hx)
  have hidxlen : (lineStartIndexes t).length = lsInit.length + 1 := by
    rw [hidxs]
    simp [lineStarts_len]
  have hstartlen : (lineStarts 0 (lsInit.map List.length)).length
      = lsInit.length := by simp [lineStarts_len]
  have hrow : cursorRow t t.length = lsInit.length := by
    simp only [cursorRow, findLineStartIndex, htake, hidxlen]
    omega
  have hstart : (findLineStartIndex t t.length).2
      = ((lsInit.map List.length).map (· + 1)).sum := by
    simp only [findLineStartIndex]
    rw [htake, hidxlen, Nat.add_sub_cancel, hidxs,
      List.getD_append_right _ _ _ _ hstartlen.le, hstartlen]
    simp
  have hcol : cursorCol t t.length = lastLine.length := by
    simp only [cursorCol, hstart]
    omega
  have hlslen : (splitNL t).length = lsInit.length + 1 := by rw [hls]; simp
  simp only [cursorDown, hrow, hcol, translateRowColToIndex, hlslen]
  rw [if_neg (by omega), if_neg (by omega)]
  rw [show (lineStartIndexes t).getLastD 0
      = ((lsInit.map List.length).map (· + 1)).sum from by
    rw [hidxs]; exact List.getLastD_concat _ _ _]
  rw [show (splitNL t).getLastD [] = lastLine from by
    rw [hls]; exact List.getLastD_concat _ _ _]
  have hT2 : (List.map ((fun x => x + 1) ∘ List.length) lsInit).sum
      + lastLine.length = t.length := by
    rw [← List.map_map]; exact hT
  simp
  omega

/-- `insert_text` at an end-of-text cursor appends and leaves the cursor at
the new end. -/
theorem insertText_at_end (b : OutBuf) (data : List Char)
    (h : b.cursor = b.text.length) :
    insertText b data
      = { text := b.text ++ data, cursor := (b.text ++ data).length } := by
  simp [insertText, h]

/-- `append_output` at an end-of-text cursor appends the text and scrolls to
the bottom: the cursor lands exactly on the new content length. -/
theorem append_output_at_end (b : OutBuf) (data : List Char)
    (h : b.cursor = b.text.length) :
    append_output b data
      = { text := b.text ++ data, cursor := (b.text ++ data).length } := by
  rw [append_output, insertText_at_end b data h]
  exact cursorDown_at_end (b.text ++ data) 1000000 (by omega)

/-- The cursor-down movement is clamped: whatever the requested count and the
prior cursor, the resulting cursor never exceeds the content length. -/
theorem cursorDown_le (b : OutBuf) (count : Nat) :
    (cursorDown b count).cursor ≤ b.text.length := by
  simp only [cursorDown, translateRowColToIndex]
  exact Nat.min_le_right _ _

/-- The scrolled-to-bottom invariant is preserved along any sequence of
appends. -/
theorem foldl_append_output (datas : List (List Char)) :
    ∀ b : OutBuf, b.cursor = b.text.length →
      (datas.foldl append_output b).cursor
        = (datas.foldl append_output b).text.length := by
  induction datas with
  | nil => intro b h; exact h
  | cons d rest ih =>
    intro b h
    rw [List.foldl_cons, append_output_at_end b d h]
    exact ih _ rfl

/-! ## Claim C7 -/

/-- C7: starting from the program's initial output viewport, after every
append the cursor position equals the content length (the viewport is always
scrolled to the bottom); and the cursor-down movement used to achieve this is
bounded by the content length no matter how large a move count is requested
(`append_output` requests `10**6`). -/
theorem outputScrolledToBottom :
    (∀ datas : List (List Char),
      (datas.foldl append_output outputInit).cursor
        = (datas.foldl append_output outputInit).text.length)
    ∧ ∀ (b : OutBuf) (count : Nat),
        (cursorDown b count).cursor ≤ b.text.length :=
  ⟨fun datas => foldl_append_output datas outputInit rfl, cursorDown_le⟩

/-! ## Helper lemmas: the ANSI parser on escape-free text -/

/-- Joining the single-character strings of a character list rebuilds the
original string. -/
theorem join_map_toString (l : List Char) :
    String.join (l.map Char.toString) = String.mk l := by
  rw [String.join_eq]
  congr 1
  induction l with
  | nil => rfl
  | cons c rest ih =>
    simp only [List.map_cons, List.flatten_cons, ih]
    rfl

/-- On text containing none of the parser's special characters (`ESC`, the
one-byte CSI `\x9b`, and the zero-width introducer `\x01`), the parse loop
emits one fragment per character, each carrying the current style string
unchanged. -/
theorem ansiGo_plain :
    ∀ (line : List Char) (style : String) (a : AnsiAttrs) (zw : Bool),
      (∀ c ∈ line, c ≠ '\x1b' ∧ c ≠ '\x9b' ∧ c ≠ '\x01') →
      ansiGo zw style a line = line.map (fun c => (style, c.toString)) := by
  intro line
  induction line with
  | nil => intro style a zw _; cases zw <;> rfl
  | cons c rest ih =>
    intro style a zw h
    obtain ⟨h1, h2, h3⟩ := h c (List.mem_cons_self c rest)
    have hrest : ∀ x ∈ rest, x ≠ '\x1b' ∧ x ≠ '\x9b' ∧ x ≠ '\x01' :=
      fun x hx => h x (List.mem_cons_of_mem _ hx)
    rw [ansiGo.eq_def]
    simp [h1, h2, h3]
    exact ih style a true hrest

/-! ## Claim C9 (corrected)

The claim asserts that the per-line conversion returns exactly one fragment
equal to the input line.  The library parser deliberately does not merge
fragments: it emits one fragment per character, so an escape-free line of
length `n` yields `n` fragments (with the default empty style) whose texts
concatenate to the line.
-/

/-- Counterexample to C9: the escape-free line `"hi"` is converted by the
lexer into two one-character fragments, not one fragment `"hi"`. -/
theorem parseStyledText_counterexample :
    lex_document ('h' :: 'i' :: []) 0 = [("", "h"), ("", "i")]
      ∧ (lex_document ('h' :: 'i' :: []) 0).length ≠ 1 := by
  exact ⟨by decide, by decide⟩

/-- C9 as amended: on a line with no escape sequences the conversion returns
one fragment per character — each with the default empty style and a
one-character text — and the fragment texts concatenate back to exactly the
input line. -/
theorem parseStyledText_plain (line : List Char)
    (h : ∀ c ∈ line, c ≠ '\x1b' ∧ c ≠ '\x9b' ∧ c ≠ '\x01') :
    ansiParse line = line.map (fun c => ("", c.toString))
      ∧ String.join ((ansiParse line).map Prod.snd) = String.mk line := by
  have he := ansiGo_plain line "" {} true h
  refine ⟨he, ?_⟩
  rw [ansiParse, he, List.map_map]
  exact join_map_toString line

/-- Witness for the amended C9 on the line `"hi"`. -/
theorem parseStyledText_plain_witness :
    (∀ c ∈ ('h' :: 'i' :: []), c ≠ '\x1b' ∧ c ≠ '\x9b' ∧ c ≠ '\x01')
      ∧ (ansiParse ('h' :: 'i' :: [])
            = ('h' :: 'i' :: []).map (fun c => ("", c.toString))
          ∧ String.join ((ansiParse ('h' :: 'i' :: [])).map Prod.snd)
              = String.mk ('h' :: 'i' :: [])) :=
  ⟨by decide, parseStyledText_plain ('h' :: 'i' :: []) (by decide)⟩

/-! ## Claim C10 -/

/-- C10: the per-line accessor returned by `lex_document` is total: for every
line number at or past the number of lines it returns the empty fragment list
(rather than raising an out-of-range error). -/
theorem lexDocument_total (text : List Char) (lineno : Nat)
    (h : (pySplitlines text).length ≤ lineno) :
    lex_document text lineno = [] := by
  unfold lex_document
  simp [h]

/-- Witness for C10: querying line 5 of a two-line document yields `[]`. -/
theorem lexDocument_total_witness :
    (pySplitlines ('a' :: '\n' :: 'b' :: [])).length ≤ 5
      ∧ lex_document ('a' :: '\n' :: 'b' :: []) 5 = [] :=
  ⟨by decide, lexDocument_total ('a' :: '\n' :: 'b' :: []) 5 (by decide)⟩
